import Mathlib

/-!
Verification of the van_plex transcoding scripts against their design
specification.  The Python sources are shallowly embedded: pure string
manipulation becomes functions over `List Char` / `String`, the filesystem,
the media prober, the network and the encoder child process become an
explicit environment record, and one run of `transcode_video` becomes a
pure function from that environment to an outcome together with the ordered
trace of observable actions (log lines, directory creation, temporary-file
creation and deletion, encoder invocation, failure e-mail dispatch).
-/

namespace VanPlex

/-! ## filename_cleaner.py -/

/-- Python `str.rstrip()` whitespace, restricted to the ASCII whitespace
characters (the filenames handled by the scripts are ASCII). -/
def pyIsSpace (c : Char) : Bool :=
  c = ' ' || c = '\t' || c = '\n' || c = '\r' || c = '\x0b' || c = '\x0c'

/-- Python `s.rstrip()`: remove the maximal run of trailing whitespace. -/
def rstripChars : List Char → List Char
  | [] => []
  | c :: cs =>
    match rstripChars cs with
    | [] => if pyIsSpace c then [] else [c]
    | r :: rs => c :: r :: rs

/-- `clean_filename` of `filename_cleaner.py`, on character lists:
`original_name.find('[')`; if found, everything before the bracket,
right-stripped; otherwise the whole name right-stripped. -/
def cleanChars (l : List Char) : List Char :=
  match l.findIdx? (fun c => c = '[') with
  | some i => rstripChars (l.take i)
  | none => rstripChars l

/-- `clean_filename` of `filename_cleaner.py` on strings. -/
def clean_filename (s : String) : String :=
  ⟨cleanChars s.data⟩

/-! ## transcode_van_playlists.py — data model

A subtitle stream descriptor as `find_english_subtitle_stream` reads it from
the media-server client: `stream.languageCode`, `stream.codec` (an empty
string models a falsy/absent codec field) and `stream.key`. -/

structure SubtitleStream where
  languageCode : String
  codec : String
  key : String
deriving DecidableEq, Repr

/-- The part of a Plex `Video` object the engine reads: the display title and
the ordered subtitle stream list. -/
structure Video where
  title : String
  subtitleStreams : List SubtitleStream
deriving DecidableEq, Repr

/-- Severities of the Python `logging` calls the script makes. -/
inductive Level where
  | debug
  | info
  | warning
  | error
deriving DecidableEq, Repr

/-- Observable actions of one `transcode_video` call, in program order. -/
inductive Event where
  /-- a `logging.<level>(msg)` call (messages that interpolate runtime
  exception text are modelled by their static part) -/
  | log (lvl : Level) (msg : String)
  /-- `os.makedirs(dir, exist_ok=True)` -/
  | makedirs (dir : String)
  /-- an `ffprobe` duration probe of `path` (the `subprocess.run` inside
  `get_duration`) -/
  | probeDuration (path : String)
  /-- creation of the `tempfile.NamedTemporaryFile(delete=False)` at `path` -/
  | createTempFile (path : String)
  /-- `os.remove(path)` -/
  | deleteFile (path : String)
  /-- the `subprocess.Popen(ffmpeg_cmd, ...)` encoder invocation -/
  | runEncoder (cmd : List String)
  /-- a call of the `send_failure_email` collaborator with the video title
  and the local source path -/
  | sendFailureEmail (title : String) (sourcePath : String)
deriving DecidableEq, Repr

/-- How the subtitle download (`requests.get` + `iter_content`) ends when it
is attempted.  `failBeforeCreate`: a `RequestException` from `requests.get`
or `raise_for_status`, before the temporary file exists.  `failAfterCreate`:
a `RequestException` while streaming the body, after
`tempfile.NamedTemporaryFile` has created the file and `temp_sub_path` was
assigned. -/
inductive FetchOutcome where
  | ok
  | failBeforeCreate
  | failAfterCreate
deriving DecidableEq, Repr

/-- The external world one `transcode_video` call observes: filesystem
facts, `ffprobe` answers, the network, the temporary-file name the OS
hands out, the configuration flags and the encoder child process.  The
results of the `os.path` manipulations (relpath/join/splitext/basename),
which are external library calls, enter as `localSourcePath`, `destDir`
and `baseFilename`. -/
structure Env where
  /-- `os.path.exists(local_source_path)` -/
  localSourceExists : Bool
  /-- `os.path.exists(destination_path)` (also read inside
  `is_transcode_valid`) -/
  destExists : Bool
  /-- `os.path.getmtime(local_source_path)` -/
  srcMtime : ℚ
  /-- `os.path.getmtime(destination_path)` -/
  dstMtime : ℚ
  /-- `ffprobe` duration of the source, `none` = probe failed -/
  srcDuration : Option ℚ
  /-- `ffprobe` duration of the destination, `none` = probe failed -/
  dstDuration : Option ℚ
  /-- outcome of the subtitle download, when one is attempted -/
  fetch : FetchOutcome
  /-- the name `NamedTemporaryFile` assigns -/
  tempPath : String
  /-- the `--dry-run` flag -/
  dryRun : Bool
  /-- the `--use-qsv` flag -/
  useQsv : Bool
  /-- `subprocess.Popen` of ffmpeg raises (e.g. binary missing): the
  exception reaches the catch-all `except Exception` -/
  encoderRaises : Bool
  /-- `process.returncode` of the encoder when it runs -/
  encoderExit : Int
  /-- the captured (stripped) combined-output lines of the encoder -/
  encoderOutput : List String
  /-- `logging.getLogger().isEnabledFor(logging.DEBUG)` -/
  debugEnabled : Bool
  /-- the local source path computed at lines 219-220 -/
  localSourcePath : String
  /-- `dest_dir` computed at line 227 -/
  destDir : String
  /-- `base_filename` computed at line 230 -/
  baseFilename : String
deriving DecidableEq, Repr

/-- The terminal classification of one item, as the spec's
`TranscodeOutcome` names it.  `sourceMissing` is the early return at line
224 (`SourceUnavailable`), `errored` the catch-all `except Exception`
branch. -/
inductive TranscodeOutcome where
  | skipped
  | dryRunReported
  | succeeded
  | failed
  | sourceMissing
  | errored
deriving DecidableEq, Repr

/-! ## transcode_van_playlists.py — operations -/

/-- `find_english_subtitle_stream` (lines 129-140): the first subtitle
stream with `languageCode == 'eng'` and a truthy `codec`, returning its
`key`.  (Its two info log lines are emitted at the call site model,
`subtitlePhase`.) -/
def find_english_subtitle_stream (v : Video) : Option String :=
  (v.subtitleStreams.find? fun s => s.languageCode == "eng" && s.codec != "").map
    (fun s => s.key)

/-- `is_transcode_valid` (lines 142-195) with its trace: destination
existence check, then one `ffprobe` probe per file, then the zero-duration
and percentage-tolerance comparison.  `tol` is
`duration_tolerance_percent` (default `1.0`). -/
def is_transcode_valid (env : Env) (source_path dest_path : String) (tol : ℚ) :
    Bool × List Event :=
  if env.destExists = false then (false, [])
  else
    let probes := [Event.probeDuration source_path, Event.probeDuration dest_path]
    match env.srcDuration, env.dstDuration with
    | some s, some d =>
      if s = 0 then
        if d = 0 then (true, probes)
        else
          (false, probes ++
            [Event.log .warning "Validation failed. Source duration is 0 but destination is not."])
      else
        if |s - d| / s * 100 ≤ tol then (true, probes)
        else
          (false, probes ++
            [Event.log .warning "Validation failed. Duration difference is over the threshold."])
    | _, _ =>
      (false, probes ++
        [Event.log .warning "Could not validate duration, assuming it is invalid."])

/-- The destination path of lines 227-242: `dest_dir` joined with the
cleaned stem (with the `"transcoded_file"` fallback for an empty cleaning
result) plus the fixed `.mkv` container extension. -/
def destination_path_of (env : Env) : String :=
  let c := clean_filename env.baseFilename
  env.destDir ++ "/" ++ (if c = "" then "transcoded_file" else c) ++ ".mkv"

/-- The hybrid skip check of lines 245-254.  `true` = a valid, up-to-date
destination exists and the item is skipped.  The mtime staleness test comes
first; `is_transcode_valid` (and with it any duration probing) runs only
when the source is not newer, mirroring the short-circuit
`not source_is_newer and is_transcode_valid(...)`. -/
def skipCheck (env : Env) (destination_path : String) : Bool × List Event :=
  if env.destExists then
    if decide (env.srcMtime > env.dstMtime) then
      (false, [Event.log .info "Re-transcoding: Source file is newer."])
    else
      let v := is_transcode_valid env env.localSourcePath destination_path 1
      if v.1 then
        (true, v.2 ++ [Event.log .info ("SKIPPING: Valid and up-to-date file exists: '" ++ destination_path ++ "'")])
      else
        (false, v.2 ++ [Event.log .info ("Re-transcoding: Existing file failed validation ('" ++ destination_path ++ "')." )])
  else (false, [])

/-- The path escaping of line 287: `replace('\\','\\\\')` then
`replace(':','\\:')`, as a single character-level pass (the two sequential
replacements commute into one pass because the first only produces
backslashes and the second only inspects colons). -/
def escapeChar (c : Char) : List Char :=
  if c = '\\' then ['\\', '\\']
  else if c = ':' then ['\\', ':']
  else [c]

/-- The escaped temporary-subtitle path of line 287. -/
def escapePath (s : String) : String :=
  ⟨s.data.flatMap escapeChar⟩

/-- The fixed scale-and-pad video filter chain of line 267. -/
def base_video_filters : String :=
  "scale=w=1280:h=720:force_original_aspect_ratio=decrease,pad=w=1280:h=720:x=(ow-iw)/2:y=(oh-ih)/2"

/-- The fixed loudness-levelling audio filter of line 297. -/
def audio_filters : String :=
  "acompressor=threshold=0.1:ratio=2:attack=20:release=200"

/-- The subtitle overlay filter of line 288 (`f"subtitles='{escaped_path}'"`). -/
def subtitleFilter (tempPath : String) : String :=
  "subtitles='" ++ escapePath tempPath ++ "'"

/-- The complete `ffmpeg_cmd` argument list of lines 261-324, as a function
of the inputs that vary: local source path, the optional temporary subtitle
path (present only when the download succeeded), the `use_qsv` flag and the
destination path. -/
def build_ffmpeg_cmd (local_source_path : String) (sub : Option String)
    (use_qsv : Bool) (destination_path : String) : List String :=
  let video_filters :=
    match sub with
    | some p => subtitleFilter p ++ "," ++ base_video_filters
    | none => base_video_filters
  ["ffmpeg", "-i", local_source_path]
    ++ ["-vf", video_filters]
    ++ ["-ac", "2", "-af", audio_filters]
    ++ (if use_qsv then ["-c:v", "hevc_qsv", "-preset", "medium", "-global_quality", "28"]
        else ["-c:v", "libx265", "-preset", "medium", "-crf", "28"])
    ++ ["-c:a", "aac", "-b:a", "192k", "-y", destination_path]

/-- The command pretty-printer of lines 332 and 354:
`' '.join(f"'{arg}'" if ' ' in arg else arg for arg in ffmpeg_cmd)`. -/
def quoteArg (a : String) : String :=
  if a.contains ' ' then "'" ++ a ++ "'" else a

/-- `pretty_cmd`. -/
def prettyCmd (cmd : List String) : String :=
  String.intercalate " " (cmd.map quoteArg)

/-- The subtitle phase of lines 270-292.  Returns the `temp_sub_path`
variable as it stands when the phase ends, and the phase's events.  On
`failAfterCreate` the file was created but the handler at line 292 resets
`temp_sub_path` to `None`, so the returned option is `none` although a
`createTempFile` event was emitted. -/
def subtitlePhase (v : Video) (env : Env) : Option String × List Event :=
  match find_english_subtitle_stream v with
  | none =>
    (none, [Event.log .info ("No English subtitle stream found for '" ++ v.title ++ "'")])
  | some _ =>
    let ev0 := [Event.log .info ("Found English subtitle stream for '" ++ v.title ++ "'"),
                Event.log .info "Downloading subtitle from the stream URL"]
    match env.fetch with
    | .failBeforeCreate =>
      (none, ev0 ++
        [Event.log .error "Failed to download subtitle file. Transcoding without subtitles."])
    | .failAfterCreate =>
      (none, ev0 ++
        [Event.createTempFile env.tempPath,
         Event.log .error "Failed to download subtitle file. Transcoding without subtitles."])
    | .ok =>
      (some env.tempPath, ev0 ++
        [Event.createTempFile env.tempPath,
         Event.log .info ("Subtitle downloaded to temporary file: " ++ env.tempPath)])

/-- The failure diagnostic assembled at lines 357-363: it embeds the exit
code, the exact pretty-printed command line and the full captured output. -/
def failureMessage (local_source_path : String) (exitCode : Int)
    (cmd : List String) (out : List String) : String :=
  "Failed to transcode '" ++ local_source_path ++ "'.\n  Exit Code: "
    ++ toString exitCode ++ "\n  Command: " ++ prettyCmd cmd
    ++ "\n  FFmpeg Output:\n" ++ String.intercalate "\n" out

/-- The execution phase of lines 326-376: the `Transcoding ...` log, then
the dry-run early return, else the encoder child process (which may raise,
reaching the catch-all handler), its captured/relayed output, and the
exit-code classification with the failure log and e-mail. -/
def encodePhase (v : Video) (env : Env) (cmd : List String)
    (destination_path : String) : TranscodeOutcome × List Event :=
  let evT := [Event.log .info ("Transcoding '" ++ env.localSourcePath ++ "' to '" ++ destination_path ++ "'")]
  if env.dryRun then
    (.dryRunReported, evT ++ [Event.log .info ("[DRY RUN] Would run command: " ++ prettyCmd cmd)])
  else if env.encoderRaises then
    (.errored, evT ++ [Event.log .error ("An error occurred while processing '" ++ v.title ++ "'")])
  else
    let dbg := if env.debugEnabled then env.encoderOutput.map (fun l => Event.log .debug l) else []
    if env.encoderExit = 0 then
      (.succeeded,
        evT ++ [Event.runEncoder cmd] ++ dbg
          ++ [Event.log .info ("Successfully transcoded '" ++ destination_path ++ "'")])
    else
      (.failed,
        evT ++ [Event.runEncoder cmd] ++ dbg
          ++ [Event.log .error (failureMessage env.localSourcePath env.encoderExit cmd env.encoderOutput),
              Event.sendFailureEmail v.title env.localSourcePath])

/-- The `finally` block of lines 378-382: delete the temporary subtitle
file when `temp_sub_path` is set (within one call the created file still
exists, so the `os.path.exists` guard is true). -/
def finallyEvents : Option String → List Event
  | some p => [Event.log .info ("Cleaning up temporary subtitle file: " ++ p),
               Event.deleteFile p]
  | none => []

/-- `transcode_video` (lines 197-382): one item's processing as outcome
plus event trace.  Control flow: local-source existence check; destination
path construction through `clean_filename` with the empty-stem fallback;
the hybrid skip check; `os.makedirs`; the subtitle phase; command
construction; the execution phase; and the `finally` cleanup, which runs
on every path after the skip check. -/
def transcode_video (v : Video) (env : Env) : TranscodeOutcome × List Event :=
  if env.localSourceExists = false then
    (.sourceMissing,
      [Event.log .error ("Source file not found at local path: '" ++ env.localSourcePath ++ "'. Skipping.")])
  else
    let warnEv :=
      if clean_filename env.baseFilename = "" then
        [Event.log .warning "Cleaned filename resulted in empty string. Using fallback."]
      else []
    let destination_path := destination_path_of env
    let sc := skipCheck env destination_path
    if sc.1 then
      (.skipped, warnEv ++ sc.2)
    else
      let sub := subtitlePhase v env
      let cmd := build_ffmpeg_cmd env.localSourcePath sub.1 env.useQsv destination_path
      let enc := encodePhase v env cmd destination_path
      (enc.1,
        warnEv ++ sc.2 ++ [Event.makedirs env.destDir] ++ sub.2 ++ enc.2
          ++ finallyEvents sub.1)

/-- The per-item loop of `main` (lines 544-553): each `(video, environment)`
pair is processed by `transcode_video` in sequence; `transcode_video`
catches every per-item exception, so one item's result never influences
whether or how the next is processed. -/
def process_videos (items : List (Video × Env)) : List (TranscodeOutcome × List Event) :=
  items.map fun it => transcode_video it.1 it.2

/-! ## Trace observation helpers -/

/-- Counts `deleteFile p` events. -/
def isDeleteOf (p : String) : Event → Bool
  | .deleteFile q => q == p
  | _ => false

/-- Counts `createTempFile p` events. -/
def isCreateOf (p : String) : Event → Bool
  | .createTempFile q => q == p
  | _ => false

/-- Counts `sendFailureEmail t s` events. -/
def isEmailTo (t s : String) : Event → Bool
  | .sendFailureEmail a b => a == t && b == s
  | _ => false

/-- Counts any `sendFailureEmail` event. -/
def isEmail : Event → Bool
  | .sendFailureEmail _ _ => true
  | _ => false

/-- Counts any duration-probe event. -/
def isProbe : Event → Bool
  | .probeDuration _ => true
  | _ => false

/-- Counts any encoder invocation. -/
def isRun : Event → Bool
  | .runEncoder _ => true
  | _ => false

/-- Counts warning-severity log lines. -/
def isWarnLog : Event → Bool
  | .log .warning _ => true
  | _ => false

/-- Any log event, of any severity. -/
def isLog : Event → Bool
  | .log _ _ => true
  | _ => false

/-- `hasArgPair flag val args` holds when `args` contains the value `val`
directly after the flag `flag`: the way an option is passed to ffmpeg. -/
def hasArgPair (flag val : String) : List String → Bool
  | a :: b :: rest => (a == flag && b == val) || hasArgPair flag val (b :: rest)
  | _ => false

/-- A video with one eligible English subtitle track. -/
def subVideo : Video where
  title := "T"
  subtitleStreams := [{ languageCode := "eng", codec := "srt", key := "k" }]

/-- A video with no subtitle tracks. -/
def plainVideo : Video where
  title := "T"
  subtitleStreams := []

/-- A base environment: local source present, no existing destination,
non-dry-run, succeeding encoder, successful subtitle fetch; individual
fields are overridden per scenario. -/
def baseEnv : Env where
  localSourceExists := true
  destExists := false
  srcMtime := 0
  dstMtime := 0
  srcDuration := none
  dstDuration := none
  fetch := .ok
  tempPath := "tmp.srt"
  dryRun := false
  useQsv := false
  encoderRaises := false
  encoderExit := 0
  encoderOutput := []
  debugEnabled := false
  localSourcePath := "src.mkv"
  destDir := "out"
  baseFilename := "b"

/-- An environment exercising `is_transcode_valid` alone: destination
existence `de` and the two probed durations; everything else inert. -/
def probeEnv (de : Bool) (sd dd : Option ℚ) : Env where
  localSourceExists := true
  destExists := de
  srcMtime := 0
  dstMtime := 0
  srcDuration := sd
  dstDuration := dd
  fetch := .ok
  tempPath := "t.srt"
  dryRun := false
  useQsv := false
  encoderRaises := false
  encoderExit := 0
  encoderOutput := []
  debugEnabled := false
  localSourcePath := "src.mkv"
  destDir := "out"
  baseFilename := "b"

/-! ## Helper lemmas about the filename cleaner -/

theorem rstripChars_isPre (l : List Char) : rstripChars l <+: l := by
  induction l with
  | nil => exact List.nil_prefix
  | cons c cs ih =>
    rw [rstripChars]
    cases h : rstripChars cs with
    | nil =>
      by_cases hc : pyIsSpace c
      · simp [hc]
      · simp [hc, List.cons_prefix_cons, List.nil_prefix]
    | cons r rs =>
      rw [h] at ih
      simpa [List.cons_prefix_cons] using ih

theorem rstripChars_eq_nil_iff (l : List Char) :
    rstripChars l = [] ↔ ∀ c ∈ l, pyIsSpace c = true := by
  induction l with
  | nil => simp [rstripChars]
  | cons c cs ih =>
    rw [rstripChars]
    cases h : rstripChars cs with
    | nil =>
      rw [h] at ih
      by_cases hc : pyIsSpace c
      · simpa [hc] using ih.mp rfl
      · simp [hc]
    | cons r rs =>
      have : ¬ (∀ x ∈ cs, pyIsSpace x = true) := fun hall => by
        rw [ih.mpr hall] at h
        exact List.noConfusion h
      simp only [List.mem_cons, forall_eq_or_imp]
      constructor
      · intro hh
        exact absurd hh (List.cons_ne_nil _ _)
      · intro hh
        exact absurd hh.2 this

theorem rstripChars_cons_congr (c : Char) {X Y : List Char}
    (h : rstripChars X = rstripChars Y) :
    rstripChars (c :: X) = rstripChars (c :: Y) := by
  rw [rstripChars, rstripChars, h]

theorem rstripChars_idem (l : List Char) :
    rstripChars (rstripChars l) = rstripChars l := by
  induction l with
  | nil => rfl
  | cons c cs ih =>
    rw [rstripChars]
    cases h : rstripChars cs with
    | nil =>
      by_cases hc : pyIsSpace c <;> simp [rstripChars, hc]
    | cons r rs =>
      rw [h] at ih
      rw [rstripChars, ih]

theorem takeWhile_rstripChars {l : List Char} (h : ∃ c ∈ l, pyIsSpace c = false) :
    (rstripChars l).takeWhile pyIsSpace = l.takeWhile pyIsSpace := by
  induction l with
  | nil => simp at h
  | cons c cs ih =>
    rw [rstripChars]
    by_cases hc : pyIsSpace c
    · have hcs : ∃ x ∈ cs, pyIsSpace x = false := by
        rcases h with ⟨x, hx, hxf⟩
        rcases List.mem_cons.mp hx with rfl | hmem
        · rw [hc] at hxf; exact absurd hxf (by simp)
        · exact ⟨x, hmem, hxf⟩
      have hne : rstripChars cs ≠ [] := fun hnil => by
        rcases hcs with ⟨x, hx, hxf⟩
        have := (rstripChars_eq_nil_iff cs).mp hnil x hx
        rw [this] at hxf
        exact Bool.noConfusion hxf
      cases hr : rstripChars cs with
      | nil => exact absurd hr hne
      | cons r rs =>
        rw [hr] at ih
        rw [List.takeWhile_cons_of_pos hc, List.takeWhile_cons_of_pos hc, ih hcs]
    · cases hr : rstripChars cs with
      | nil => simp [hc, List.takeWhile_cons_of_neg hc]
      | cons r rs => simp [List.takeWhile_cons_of_neg hc]

theorem takeWhile_takeWhile_of_imp {α : Type} {p q : α → Bool}
    (hpq : ∀ a, p a = true → q a = true) (l : List α) :
    (l.takeWhile q).takeWhile p = l.takeWhile p := by
  induction l with
  | nil => rfl
  | cons c cs ih =>
    by_cases hq : q c
    · rw [List.takeWhile_cons_of_pos hq]
      by_cases hp : p c
      · rw [List.takeWhile_cons_of_pos hp, List.takeWhile_cons_of_pos hp, ih]
      · rw [List.takeWhile_cons_of_neg hp, List.takeWhile_cons_of_neg hp]
    · have hp : ¬ p c = true := fun hpc => hq (hpq c hpc)
      rw [List.takeWhile_cons_of_neg hq, List.takeWhile_cons_of_neg hp]
      rfl

theorem cleanChars_eq (l : List Char) :
    cleanChars l = rstripChars (l.takeWhile fun c => !(c == '[')) := by
  induction l with
  | nil => rfl
  | cons c cs ih =>
    by_cases hc : c = '['
    · subst hc
      simp [cleanChars, List.findIdx?_cons, rstripChars]
    · have ht : List.takeWhile (fun c => !(c == '[')) (c :: cs)
          = c :: List.takeWhile (fun c => !(c == '[')) cs := by
        simp [List.takeWhile_cons, hc]
      rw [ht, cleanChars, List.findIdx?_cons]
      simp only [decide_eq_true_eq, hc, if_false, List.findIdx?_start_succ]
      rw [cleanChars] at ih
      cases hf : cs.findIdx? (fun c => decide (c = '[')) 0 with
      | none =>
        rw [hf] at ih
        simp only [Option.map_none']
        exact rstripChars_cons_congr c ih
      | some j =>
        rw [hf] at ih
        simp only [Option.map_some', Nat.zero_add, List.take_succ_cons]
        exact rstripChars_cons_congr c ih

theorem bracket_not_mem_cleanChars (l : List Char) : '[' ∉ cleanChars l := by
  rw [cleanChars_eq]
  intro hmem
  have h1 : '[' ∈ l.takeWhile (fun c => !(c == '[')) :=
    (rstripChars_isPre _).sublist.mem hmem
  have := List.mem_takeWhile_imp h1
  simp at this

theorem cleanChars_isPre (l : List Char) : cleanChars l <+: l := by
  rw [cleanChars_eq]
  exact (rstripChars_isPre _).trans (List.takeWhile_prefix _)

theorem cleanChars_of_no_bracket {l : List Char} (h : '[' ∉ l) :
    cleanChars l = rstripChars l := by
  rw [cleanChars_eq]
  congr 1
  rw [List.takeWhile_eq_self_iff]
  intro x hx
  simp only [Bool.not_eq_true']
  exact beq_eq_false_iff_ne.mpr (fun hxe => h (hxe ▸ hx))

theorem cleanChars_idem (l : List Char) : cleanChars (cleanChars l) = cleanChars l := by
  rw [cleanChars_of_no_bracket (bracket_not_mem_cleanChars l), cleanChars_eq,
    rstripChars_idem]

theorem pyIsSpace_ne_bracket {c : Char} (h : pyIsSpace c = true) : (!(c == '[')) = true := by
  simp only [pyIsSpace, Bool.or_eq_true, decide_eq_true_eq] at h
  rcases h with ((((h | h) | h) | h) | h) | h <;> subst h <;> decide

/-! ## Claims about the Path Namer (filename_cleaner.py) -/

/-- Claim C8: for every string, `clean_filename` returns the substring
strictly before the first occurrence of `[` with trailing whitespace
trimmed when a bracket occurs, and the whole name with trailing whitespace
trimmed otherwise; it is total (the empty string yields the empty string, a
string of only bracketed content yields the empty string, the spec's
leading-whitespace example holds), and it never trims at the front: a
nonempty result keeps exactly the original leading whitespace run. -/
theorem claim_C8 :
    (∀ s : String, '[' ∈ s.data →
      (clean_filename s).data
        = rstripChars (s.data.takeWhile fun c => !(c == '['))) ∧
    (∀ s : String, '[' ∉ s.data → (clean_filename s).data = rstripChars s.data) ∧
    clean_filename "" = "" ∧
    clean_filename "[a][b]" = "" ∧
    clean_filename "  X (2077) [tag]" = "  X (2077)" ∧
    (∀ s : String, (clean_filename s).data ≠ [] →
      (clean_filename s).data.takeWhile pyIsSpace = s.data.takeWhile pyIsSpace) := by
  refine ⟨fun s _ => cleanChars_eq s.data,
    fun s h => cleanChars_of_no_bracket h, by decide, by decide, by decide, ?_⟩
  intro s hne
  have hdata : (clean_filename s).data = cleanChars s.data := rfl
  rw [hdata, cleanChars_eq] at hne ⊢
  have h1 : (rstripChars (s.data.takeWhile fun c => !(c == '['))).takeWhile pyIsSpace
      = (s.data.takeWhile fun c => !(c == '[')).takeWhile pyIsSpace := by
    apply takeWhile_rstripChars
    by_contra hall
    push_neg at hall
    apply hne
    rw [rstripChars_eq_nil_iff]
    intro c hc
    have := hall c hc
    exact Bool.not_eq_false _ ▸ (eq_true_of_ne_false this)
  have h2 : (s.data.takeWhile fun c => !(c == '[')).takeWhile pyIsSpace
      = s.data.takeWhile pyIsSpace :=
    takeWhile_takeWhile_of_imp (fun a ha => pyIsSpace_ne_bracket ha) s.data
  rw [h1, h2]

/-- Witness for C8 at concrete inputs: a bracketed name, a bracket-free
name, and a name with leading whitespace and a nonempty cleaning result. -/
theorem witness_C8 :
    (clean_filename "ab[cd").data
      = rstripChars (("ab[cd" : String).data.takeWhile fun c => !(c == '[')) ∧
    (clean_filename "a b ").data = rstripChars ("a b " : String).data ∧
    (clean_filename " x[y]").data.takeWhile pyIsSpace
      = (" x[y]" : String).data.takeWhile pyIsSpace :=
  ⟨claim_C8.1 "ab[cd" (by decide), claim_C8.2.1 "a b " (by decide),
   claim_C8.2.2.2.2.2 " x[y]" (by decide)⟩

/-- Claim C9: `clean_filename` is idempotent, and on bracket-free strings
it equals plain right-stripping. -/
theorem claim_C9 :
    (∀ s : String, clean_filename (clean_filename s) = clean_filename s) ∧
    ∀ s : String, '[' ∉ s.data → (clean_filename s).data = rstripChars s.data := by
  constructor
  · intro s
    unfold clean_filename
    exact congrArg String.mk (cleanChars_idem s.data)
  · intro s h
    exact cleanChars_of_no_bracket h

/-- Witness for C9 at concrete inputs. -/
theorem witness_C9 :
    clean_filename (clean_filename "q [r]") = clean_filename "q [r]" ∧
    (clean_filename "q r ").data = rstripChars ("q r " : String).data :=
  ⟨claim_C9.1 "q [r]", claim_C9.2 "q r " (by decide)⟩

/-- Claim C10: the cleaned name is a prefix of the original (so no longer
than it, with no characters added or reordered) and never contains `[`. -/
theorem claim_C10 :
    ∀ s : String, (clean_filename s).data <+: s.data ∧
      (clean_filename s).length ≤ s.length ∧ '[' ∉ (clean_filename s).data :=
  fun s => ⟨cleanChars_isPre s.data, (cleanChars_isPre s.data).length_le,
    bracket_not_mem_cleanChars s.data⟩

/-! ## Claims about the Validity Oracle -/

/-- Claim C1: `is_transcode_valid` is true iff the destination exists, both
durations are obtainable from the prober, and either both durations are
exactly zero or the source duration is nonzero and the relative difference
`abs(src - dst) / src` is at most the tolerance fraction (the percentage
parameter over 100); plus the spec's concrete examples at the default 1%
tolerance, and the remaining rejection cases (destination missing, either
duration unobtainable, zero source with nonzero destination). -/
theorem claim_C1 :
    (∀ (env : Env) (sp dp : String) (tol : ℚ),
      (is_transcode_valid env sp dp tol).1 = true ↔
        env.destExists = true ∧ ∃ s d, env.srcDuration = some s ∧
          env.dstDuration = some d ∧
          ((s = 0 ∧ d = 0) ∨ (s ≠ 0 ∧ |s - d| / s ≤ tol / 100))) ∧
    (is_transcode_valid (probeEnv true (some 100) (some (1009/10))) "s" "d" 1).1 = true ∧
    (is_transcode_valid (probeEnv true (some 100) (some 102)) "s" "d" 1).1 = false ∧
    (is_transcode_valid (probeEnv true (some 0) (some 0)) "s" "d" 1).1 = true ∧
    (is_transcode_valid (probeEnv true (some 0) (some (1/2))) "s" "d" 1).1 = false ∧
    (is_transcode_valid (probeEnv false (some 100) (some 100)) "s" "d" 1).1 = false ∧
    (is_transcode_valid (probeEnv true none (some 100)) "s" "d" 1).1 = false ∧
    (is_transcode_valid (probeEnv true (some 100) none) "s" "d" 1).1 = false := by
  have h100 : (0 : ℚ) < 100 := by norm_num
  refine ⟨?_,
    by simp only [is_transcode_valid, probeEnv]; norm_num [abs_le],
    by simp only [is_transcode_valid, probeEnv]; norm_num [abs_le],
    by simp only [is_transcode_valid, probeEnv]; norm_num,
    by simp only [is_transcode_valid, probeEnv]; norm_num,
    by simp [is_transcode_valid, probeEnv],
    by simp [is_transcode_valid, probeEnv],
    by simp [is_transcode_valid, probeEnv]⟩
  intro env sp dp tol
  unfold is_transcode_valid
  rcases env with ⟨lse, de, sm, dm, sd, dd, f, tp, dr, uq, er, ee, eo, dbg, lsp, ddir, bf⟩
  dsimp only
  cases de
  · simp
  · cases sd with
    | none => cases dd <;> simp
    | some s =>
      cases dd with
      | none => simp
      | some d =>
        by_cases hs0 : s = 0
        · subst hs0
          by_cases hd0 : d = 0
          · subst hd0; simp
          · simp [hd0]
        · by_cases hle : |s - d| / s * 100 ≤ tol
          · have hfr : |s - d| / s ≤ tol / 100 := (le_div_iff₀ h100).mpr hle
            simp [hs0, hle, hfr]
          · have hfr : ¬ |s - d| / s ≤ tol / 100 :=
              fun hc => hle ((le_div_iff₀ h100).mp hc)
            simp [hs0, hle, hfr]

/-! ## Helper lemmas about the transcode trace -/

theorem countP_eq_zero_of_all {q : Event → Bool} {l : List Event}
    (h : ∀ e ∈ l, q e = false) : l.countP q = 0 :=
  List.countP_eq_zero.mpr (fun a ha => by simp [h a ha])

/-- The trace of `is_transcode_valid` is one of three explicit lists. -/
theorem itv_snd_cases (env : Env) (sp dp : String) (tol : ℚ) :
    (is_transcode_valid env sp dp tol).2 = [] ∨
    (is_transcode_valid env sp dp tol).2
      = [Event.probeDuration sp, Event.probeDuration dp] ∨
    ∃ m, (is_transcode_valid env sp dp tol).2
      = [Event.probeDuration sp, Event.probeDuration dp, Event.log .warning m] := by
  unfold is_transcode_valid
  split
  · exact Or.inl rfl
  · split
    · split
      · split
        · exact Or.inr (Or.inl rfl)
        · exact Or.inr (Or.inr ⟨_, rfl⟩)
      · split
        · exact Or.inr (Or.inl rfl)
        · exact Or.inr (Or.inr ⟨_, rfl⟩)
    · exact Or.inr (Or.inr ⟨_, rfl⟩)

theorem itv_countP {q : Event → Bool}
    (hlog : ∀ lvl m, q (Event.log lvl m) = false)
    (hprobe : ∀ p, q (Event.probeDuration p) = false)
    (env : Env) (sp dp : String) (tol : ℚ) :
    ((is_transcode_valid env sp dp tol).2).countP q = 0 := by
  rcases itv_snd_cases env sp dp tol with h | h | ⟨m, h⟩ <;>
    simp [h, List.countP_cons, hlog, hprobe]

theorem skipCheck_countP {q : Event → Bool}
    (hlog : ∀ lvl m, q (Event.log lvl m) = false)
    (hprobe : ∀ p, q (Event.probeDuration p) = false)
    (env : Env) (d : String) :
    ((skipCheck env d).2).countP q = 0 := by
  unfold skipCheck
  split
  · split
    · simp [List.countP_cons, hlog]
    · dsimp only
      split <;>
        simp [List.countP_append, List.countP_cons, hlog,
          itv_countP hlog hprobe env env.localSourcePath d 1]
  · rfl

theorem subtitlePhase_countP {q : Event → Bool}
    (hlog : ∀ lvl m, q (Event.log lvl m) = false)
    (hcreate : ∀ p, q (Event.createTempFile p) = false)
    (v : Video) (env : Env) :
    ((subtitlePhase v env).2).countP q = 0 := by
  unfold subtitlePhase
  split
  · simp [List.countP_cons, hlog]
  · cases hf : env.fetch <;>
      simp [hf, List.countP_append, List.countP_cons, hlog, hcreate]

theorem dbg_countP {q : Event → Bool}
    (hlog : ∀ lvl m, q (Event.log lvl m) = false) (out : List String) :
    ((out.map fun l => Event.log Level.debug l).countP q) = 0 :=
  countP_eq_zero_of_all (fun e he => by
    rcases List.mem_map.mp he with ⟨x, -, rfl⟩
    exact hlog _ _)

theorem encodePhase_countP {q : Event → Bool}
    (hlog : ∀ lvl m, q (Event.log lvl m) = false)
    (hrun : ∀ c, q (Event.runEncoder c) = false)
    (hemail : ∀ t s, q (Event.sendFailureEmail t s) = false)
    (v : Video) (env : Env) (cmd : List String) (d : String) :
    ((encodePhase v env cmd d).2).countP q = 0 := by
  unfold encodePhase
  split_ifs <;>
    simp [List.countP_append, List.countP_cons, hlog, hrun, hemail,
      dbg_countP hlog]

theorem finallyEvents_countP {q : Event → Bool}
    (hlog : ∀ lvl m, q (Event.log lvl m) = false)
    (hdel : ∀ p, q (Event.deleteFile p) = false)
    (o : Option String) :
    (finallyEvents o).countP q = 0 := by
  cases o <;> simp [finallyEvents, List.countP_cons, hlog, hdel]

theorem not_mem_of_countP_isCreateOf {p : String} {l : List Event}
    (h : l.countP (isCreateOf p) = 0) : Event.createTempFile p ∉ l :=
  fun hmem => by
    have := List.countP_eq_zero.mp h _ hmem
    simp [isCreateOf] at this

/-! Shape lemmas: the three top-level outcomes of `transcode_video`. -/

theorem transcode_video_of_missing (v : Video) (env : Env)
    (h : env.localSourceExists = false) :
    transcode_video v env = (.sourceMissing,
      [Event.log .error ("Source file not found at local path: '"
        ++ env.localSourcePath ++ "'. Skipping.")]) := by
  unfold transcode_video
  simp [h]

theorem transcode_video_of_skip (v : Video) (env : Env)
    (h1 : env.localSourceExists = true)
    (h2 : (skipCheck env (destination_path_of env)).1 = true) :
    transcode_video v env = (.skipped,
      (if clean_filename env.baseFilename = "" then
        [Event.log .warning "Cleaned filename resulted in empty string. Using fallback."]
       else []) ++ (skipCheck env (destination_path_of env)).2) := by
  unfold transcode_video
  simp [h1, h2]

theorem transcode_video_proceed (v : Video) (env : Env)
    (h1 : env.localSourceExists = true)
    (h2 : (skipCheck env (destination_path_of env)).1 = false) :
    transcode_video v env =
      ((encodePhase v env
          (build_ffmpeg_cmd env.localSourcePath (subtitlePhase v env).1 env.useQsv
            (destination_path_of env)) (destination_path_of env)).1,
        (if clean_filename env.baseFilename = "" then
          [Event.log .warning "Cleaned filename resulted in empty string. Using fallback."]
         else []) ++ (skipCheck env (destination_path_of env)).2
          ++ [Event.makedirs env.destDir] ++ (subtitlePhase v env).2
          ++ (encodePhase v env
              (build_ffmpeg_cmd env.localSourcePath (subtitlePhase v env).1 env.useQsv
                (destination_path_of env)) (destination_path_of env)).2
          ++ finallyEvents (subtitlePhase v env).1) := by
  unfold transcode_video
  simp [h1, h2]

/-! Shape lemmas for the individual phases. -/

theorem skipCheck_of_not_exists (env : Env) (d : String)
    (h : env.destExists = false) : skipCheck env d = (false, []) := by
  unfold skipCheck
  simp [h]

theorem skipCheck_of_newer (env : Env) (d : String)
    (h1 : env.destExists = true) (h2 : env.srcMtime > env.dstMtime) :
    skipCheck env d = (false, [Event.log .info "Re-transcoding: Source file is newer."]) := by
  unfold skipCheck
  simp [h1, h2]

theorem encodePhase_fst (v : Video) (env : Env) (cmd : List String) (d : String) :
    (encodePhase v env cmd d).1 =
      if env.dryRun then .dryRunReported
      else if env.encoderRaises then .errored
      else if env.encoderExit = 0 then .succeeded
      else .failed := by
  unfold encodePhase
  split_ifs <;> rfl

theorem encodePhase_email_countP (v : Video) (env : Env) (cmd : List String) (d : String) :
    ((encodePhase v env cmd d).2).countP (isEmailTo v.title env.localSourcePath) =
      if env.dryRun then 0
      else if env.encoderRaises then 0
      else if env.encoderExit = 0 then 0
      else 1 := by
  unfold encodePhase
  split_ifs <;>
    simp [List.countP_append, List.countP_cons, isEmailTo,
      dbg_countP (q := isEmailTo v.title env.localSourcePath) (fun _ _ => rfl)]

theorem encodePhase_fail_mem (v : Video) (env : Env) (cmd : List String) (d : String)
    (h1 : env.dryRun = false) (h2 : env.encoderRaises = false)
    (h3 : ¬ env.encoderExit = 0) :
    Event.log .error (failureMessage env.localSourcePath env.encoderExit cmd
        env.encoderOutput) ∈ (encodePhase v env cmd d).2 ∧
    Event.runEncoder cmd ∈ (encodePhase v env cmd d).2 := by
  unfold encodePhase
  simp [h1, h2, h3]

theorem encodePhase_dry (v : Video) (env : Env) (cmd : List String) (d : String)
    (h : env.dryRun = true) :
    (encodePhase v env cmd d).1 = .dryRunReported ∧
    Event.log .info ("[DRY RUN] Would run command: " ++ prettyCmd cmd)
      ∈ (encodePhase v env cmd d).2 := by
  unfold encodePhase
  simp [h]

theorem subtitlePhase_of_none (v : Video) (env : Env)
    (h : find_english_subtitle_stream v = none) :
    subtitlePhase v env = (none,
      [Event.log .info ("No English subtitle stream found for '" ++ v.title ++ "'")]) := by
  unfold subtitlePhase
  simp [h]

theorem subtitlePhase_of_failBefore (v : Video) (env : Env) {k : String}
    (h : find_english_subtitle_stream v = some k)
    (hf : env.fetch = .failBeforeCreate) :
    subtitlePhase v env = (none,
      [Event.log .info ("Found English subtitle stream for '" ++ v.title ++ "'"),
       Event.log .info "Downloading subtitle from the stream URL",
       Event.log .error "Failed to download subtitle file. Transcoding without subtitles."]) := by
  unfold subtitlePhase
  simp [h, hf]

theorem subtitlePhase_of_failAfter (v : Video) (env : Env) {k : String}
    (h : find_english_subtitle_stream v = some k)
    (hf : env.fetch = .failAfterCreate) :
    subtitlePhase v env = (none,
      [Event.log .info ("Found English subtitle stream for '" ++ v.title ++ "'"),
       Event.log .info "Downloading subtitle from the stream URL",
       Event.createTempFile env.tempPath,
       Event.log .error "Failed to download subtitle file. Transcoding without subtitles."]) := by
  unfold subtitlePhase
  simp [h, hf]

theorem subtitlePhase_of_ok (v : Video) (env : Env) {k : String}
    (h : find_english_subtitle_stream v = some k) (hf : env.fetch = .ok) :
    subtitlePhase v env = (some env.tempPath,
      [Event.log .info ("Found English subtitle stream for '" ++ v.title ++ "'"),
       Event.log .info "Downloading subtitle from the stream URL",
       Event.createTempFile env.tempPath,
       Event.log .info ("Subtitle downloaded to temporary file: " ++ env.tempPath)]) := by
  unfold subtitlePhase
  simp [h, hf]

theorem warn_countP {q : Event → Bool}
    (hlog : ∀ lvl m, q (Event.log lvl m) = false)
    (c : Prop) [Decidable c] (m : String) :
    (if c then [Event.log .warning m] else []).countP q = 0 := by
  split <;> simp [List.countP_cons, hlog]

theorem encodePhase_of_dry (v : Video) (env : Env) (cmd : List String) (d : String)
    (h : env.dryRun = true) :
    encodePhase v env cmd d = (.dryRunReported,
      [Event.log .info ("Transcoding '" ++ env.localSourcePath ++ "' to '" ++ d ++ "'"),
       Event.log .info ("[DRY RUN] Would run command: " ++ prettyCmd cmd)]) := by
  unfold encodePhase
  simp [h]

theorem encodePhase_run_mem (v : Video) (env : Env) (cmd : List String) (d : String)
    (h1 : env.dryRun = false) (h2 : env.encoderRaises = false) :
    Event.runEncoder cmd ∈ (encodePhase v env cmd d).2 := by
  unfold encodePhase
  simp only [h1, Bool.false_eq_true, if_false, h2]
  split_ifs <;> simp

theorem encodePhase_isEmail_countP (v : Video) (env : Env) (cmd : List String) (d : String) :
    ((encodePhase v env cmd d).2).countP isEmail =
      if env.dryRun then 0
      else if env.encoderRaises then 0
      else if env.encoderExit = 0 then 0
      else 1 := by
  unfold encodePhase
  split_ifs <;>
    simp [List.countP_append, List.countP_cons, isEmail,
      dbg_countP (q := isEmail) (fun _ _ => rfl)]

/-! ## Claims about the Transcode Executor -/

/-- Claim C2: when the destination exists and the local source's mtime is
strictly newer, the item is never skipped and no duration probing at all is
performed (the staleness check precedes probing, and short-circuits it);
when the destination is missing, the item is never skipped; and a
strictly-newer source leads to an actual encoder invocation whenever the
encoder is reachable (source present, non-dry-run, non-raising). -/
theorem claim_C2 :
    (∀ (v : Video) (env : Env),
      env.destExists = true → env.srcMtime > env.dstMtime →
        (transcode_video v env).1 ≠ .skipped ∧
        ((transcode_video v env).2).countP isProbe = 0) ∧
    (∀ (v : Video) (env : Env), env.destExists = false →
      (transcode_video v env).1 ≠ .skipped) ∧
    (∀ (v : Video) (env : Env),
      env.destExists = true → env.srcMtime > env.dstMtime →
      env.localSourceExists = true → env.dryRun = false → env.encoderRaises = false →
        ∃ c, Event.runEncoder c ∈ (transcode_video v env).2) := by
  have hprobe0 : ∀ (v : Video) (env : Env),
      env.localSourceExists = true →
      (skipCheck env (destination_path_of env)).2.countP isProbe = 0 →
      (skipCheck env (destination_path_of env)).1 = false →
      ((transcode_video v env).2).countP isProbe = 0 := by
    intro v env h1 hsc h2
    rw [transcode_video_proceed v env h1 h2]
    simp only [List.countP_append, hsc,
      warn_countP (q := isProbe) (fun _ _ => rfl),
      subtitlePhase_countP (q := isProbe) (fun _ _ => rfl) (fun _ => rfl),
      encodePhase_countP (q := isProbe) (fun _ _ => rfl) (fun _ => rfl) (fun _ _ => rfl),
      finallyEvents_countP (q := isProbe) (fun _ _ => rfl) (fun _ => rfl)]
    simp [isProbe]
  have hns : ∀ (v : Video) (env : Env),
      env.localSourceExists = true →
      (skipCheck env (destination_path_of env)).1 = false →
      (transcode_video v env).1 ≠ .skipped := by
    intro v env h1 h2
    rw [transcode_video_proceed v env h1 h2, encodePhase_fst]
    split_ifs <;> simp
  refine ⟨?_, ?_, ?_⟩
  · intro v env h1 h2
    cases hl : env.localSourceExists with
    | false =>
      rw [transcode_video_of_missing v env hl]
      exact ⟨by simp, by simp [isProbe]⟩
    | true =>
      have hsk := skipCheck_of_newer env (destination_path_of env) h1 h2
      have hsk1 : (skipCheck env (destination_path_of env)).1 = false := by rw [hsk]
      refine ⟨hns v env hl hsk1, hprobe0 v env hl ?_ hsk1⟩
      rw [hsk]
      simp [isProbe]
  · intro v env h1
    cases hl : env.localSourceExists with
    | false =>
      rw [transcode_video_of_missing v env hl]
      simp
    | true =>
      have hsk1 : (skipCheck env (destination_path_of env)).1 = false := by
        rw [skipCheck_of_not_exists env (destination_path_of env) h1]
      exact hns v env hl hsk1
  · intro v env h1 h2 hl hdry hraise
    have hsk1 : (skipCheck env (destination_path_of env)).1 = false := by
      rw [skipCheck_of_newer env (destination_path_of env) h1 h2]
    rw [transcode_video_proceed v env hl hsk1]
    refine ⟨build_ffmpeg_cmd env.localSourcePath (subtitlePhase v env).1 env.useQsv
      (destination_path_of env), ?_⟩
    simp only [List.mem_append]
    exact Or.inl (Or.inr (encodePhase_run_mem v env _ _ hdry hraise))

/-- Witness for C2: a concrete environment with an existing, older
destination (source mtime 1 > destination mtime 0), one with a missing
destination, and the encoder reachable. -/
theorem witness_C2 :
    ((transcode_video plainVideo
        { baseEnv with destExists := true, srcMtime := 1 }).1 ≠ .skipped ∧
      ((transcode_video plainVideo
        { baseEnv with destExists := true, srcMtime := 1 }).2).countP isProbe = 0) ∧
    (transcode_video plainVideo baseEnv).1 ≠ .skipped ∧
    ∃ c, Event.runEncoder c ∈ (transcode_video plainVideo
      { baseEnv with destExists := true, srcMtime := 1 }).2 :=
  ⟨claim_C2.1 plainVideo { baseEnv with destExists := true, srcMtime := 1 }
      rfl (by norm_num [baseEnv]),
   claim_C2.2.1 plainVideo baseEnv rfl,
   claim_C2.2.2 plainVideo { baseEnv with destExists := true, srcMtime := 1 }
      rfl (by norm_num [baseEnv]) rfl rfl rfl⟩

/-- Counterexample to claim C3 as stated: with an eligible subtitle track
and a network failure during the download after the temporary file was
created (`requests` raising inside `iter_content`), the handler at line 292
sets `temp_sub_path = None`, so the `finally` block never deletes the
created file: the trace contains its creation and no deletion. -/
theorem counterexample_C3 :
    Event.createTempFile "tmp.srt"
      ∈ (transcode_video subVideo { baseEnv with fetch := .failAfterCreate }).2 ∧
    ((transcode_video subVideo
        { baseEnv with fetch := .failAfterCreate }).2).countP (isDeleteOf "tmp.srt")
      = 0 := by
  decide

/-- Claim C3 as amended: whenever a temporary subtitle file is created
during one `transcode_video` call, it is deleted exactly once before the
call returns on every exit path (normal completion, dry run, encode
failure, encoder exception) EXCEPT when a network/transport error occurs
during the subtitle download after the file was created — on that one path
the file is never deleted (it leaks).  A fetch that fails before creation
never creates a file at all. -/
theorem claim_C3 :
    ∀ (v : Video) (env : Env),
      Event.createTempFile env.tempPath ∈ (transcode_video v env).2 →
        (env.fetch = .failAfterCreate →
          ((transcode_video v env).2).countP (isDeleteOf env.tempPath) = 0) ∧
        (env.fetch = .ok →
          ((transcode_video v env).2).countP (isDeleteOf env.tempPath) = 1) ∧
        env.fetch ≠ .failBeforeCreate := by
  intro v env hmem
  have hlogz : ∀ lvl m, isDeleteOf env.tempPath (Event.log lvl m) = false := fun _ _ => rfl
  have hprobez : ∀ p, isDeleteOf env.tempPath (Event.probeDuration p) = false := fun _ => rfl
  cases hl : env.localSourceExists with
  | false =>
    rw [transcode_video_of_missing v env hl] at hmem
    simp at hmem
  | true =>
    cases hsc : (skipCheck env (destination_path_of env)).1 with
    | true =>
      rw [transcode_video_of_skip v env hl hsc] at hmem
      exact absurd hmem (not_mem_of_countP_isCreateOf (by
        simp only [List.countP_append,
          warn_countP (q := isCreateOf env.tempPath) (fun _ _ => rfl),
          skipCheck_countP (q := isCreateOf env.tempPath) (fun _ _ => rfl) (fun _ => rfl)]))
    | false =>
      rw [transcode_video_proceed v env hl hsc] at hmem ⊢
      cases hfind : find_english_subtitle_stream v with
      | none =>
        rw [subtitlePhase_of_none v env hfind] at hmem
        exact absurd hmem (not_mem_of_countP_isCreateOf (by
          simp only [List.countP_append,
            warn_countP (q := isCreateOf env.tempPath) (fun _ _ => rfl),
            skipCheck_countP (q := isCreateOf env.tempPath) (fun _ _ => rfl) (fun _ => rfl),
            encodePhase_countP (q := isCreateOf env.tempPath) (fun _ _ => rfl)
              (fun _ => rfl) (fun _ _ => rfl),
            finallyEvents_countP (q := isCreateOf env.tempPath) (fun _ _ => rfl)
              (fun _ => rfl)]
          simp [isCreateOf]))
      | some k =>
        cases hf : env.fetch with
        | failBeforeCreate =>
          rw [subtitlePhase_of_failBefore v env hfind hf] at hmem
          exact absurd hmem (not_mem_of_countP_isCreateOf (by
            simp only [List.countP_append,
              warn_countP (q := isCreateOf env.tempPath) (fun _ _ => rfl),
              skipCheck_countP (q := isCreateOf env.tempPath) (fun _ _ => rfl) (fun _ => rfl),
              encodePhase_countP (q := isCreateOf env.tempPath) (fun _ _ => rfl)
                (fun _ => rfl) (fun _ _ => rfl),
              finallyEvents_countP (q := isCreateOf env.tempPath) (fun _ _ => rfl)
                (fun _ => rfl)]
            simp [isCreateOf]))
        | failAfterCreate =>
          refine ⟨fun _ => ?_, fun h0 => absurd h0 (by decide), by decide⟩
          rw [subtitlePhase_of_failAfter v env hfind hf]
          simp only [List.countP_append,
            warn_countP (q := isDeleteOf env.tempPath) hlogz,
            skipCheck_countP (q := isDeleteOf env.tempPath) hlogz hprobez,
            encodePhase_countP (q := isDeleteOf env.tempPath) hlogz
              (fun _ => rfl) (fun _ _ => rfl)]
          simp [isDeleteOf, finallyEvents]
        | ok =>
          refine ⟨fun h0 => absurd h0 (by decide), fun _ => ?_, by decide⟩
          rw [subtitlePhase_of_ok v env hfind hf]
          simp only [List.countP_append,
            warn_countP (q := isDeleteOf env.tempPath) hlogz,
            skipCheck_countP (q := isDeleteOf env.tempPath) hlogz hprobez,
            encodePhase_countP (q := isDeleteOf env.tempPath) hlogz
              (fun _ => rfl) (fun _ _ => rfl)]
          simp [isDeleteOf, finallyEvents]

/-- Witness for C3 at a concrete input: a successful fetch deletes the
created temporary file exactly once. -/
theorem witness_C3 :
    ((transcode_video subVideo baseEnv).2).countP (isDeleteOf baseEnv.tempPath) = 1 :=
  (claim_C3 subVideo baseEnv (by decide)).2.1 rfl

/-- Claim C4: a nonzero encoder exit code makes the item `Failed`, logs the
diagnostic (which embeds the exact command line and the full captured
output) at error severity, and invokes the failure-notification
collaborator exactly once with the item's title and source path; a zero
exit code yields `Succeeded` with no notification; and one item's failure
never aborts the run — the next item in the sequence is still processed,
by the same per-item function, whatever the previous item produced. -/
theorem claim_C4 :
    (∀ (v : Video) (env : Env),
      env.localSourceExists = true →
      (skipCheck env (destination_path_of env)).1 = false →
      env.dryRun = false → env.encoderRaises = false →
        (¬ env.encoderExit = 0 →
          (transcode_video v env).1 = .failed ∧
          ((transcode_video v env).2).countP (isEmailTo v.title env.localSourcePath) = 1 ∧
          ∃ c, Event.log .error (failureMessage env.localSourcePath env.encoderExit c
              env.encoderOutput) ∈ (transcode_video v env).2 ∧
            Event.runEncoder c ∈ (transcode_video v env).2) ∧
        (env.encoderExit = 0 →
          (transcode_video v env).1 = .succeeded ∧
          ((transcode_video v env).2).countP isEmail = 0)) ∧
    (∀ (a b : Video × Env) (rest : List (Video × Env)),
      process_videos (a :: b :: rest)
        = transcode_video a.1 a.2 :: transcode_video b.1 b.2 :: process_videos rest) := by
  constructor
  · intro v env hl hsc hdry hraise
    constructor
    · intro hexit
      rw [transcode_video_proceed v env hl hsc]
      refine ⟨?_, ?_, ?_⟩
      · rw [encodePhase_fst]
        simp [hdry, hraise, hexit]
      · simp only [List.countP_append,
          warn_countP (q := isEmailTo v.title env.localSourcePath) (fun _ _ => rfl),
          skipCheck_countP (q := isEmailTo v.title env.localSourcePath)
            (fun _ _ => rfl) (fun _ => rfl),
          subtitlePhase_countP (q := isEmailTo v.title env.localSourcePath)
            (fun _ _ => rfl) (fun _ => rfl),
          finallyEvents_countP (q := isEmailTo v.title env.localSourcePath)
            (fun _ _ => rfl) (fun _ => rfl),
          encodePhase_email_countP]
        simp [isEmailTo, hdry, hraise, hexit]
      · refine ⟨build_ffmpeg_cmd env.localSourcePath (subtitlePhase v env).1 env.useQsv
          (destination_path_of env), ?_, ?_⟩
        · simp only [List.mem_append]
          exact Or.inl (Or.inr (encodePhase_fail_mem v env _ _ hdry hraise hexit).1)
        · simp only [List.mem_append]
          exact Or.inl (Or.inr (encodePhase_fail_mem v env _ _ hdry hraise hexit).2)
    · intro hexit
      rw [transcode_video_proceed v env hl hsc]
      refine ⟨?_, ?_⟩
      · rw [encodePhase_fst]
        simp [hdry, hraise, hexit]
      · simp only [List.countP_append,
          warn_countP (q := isEmail) (fun _ _ => rfl),
          skipCheck_countP (q := isEmail) (fun _ _ => rfl) (fun _ => rfl),
          subtitlePhase_countP (q := isEmail) (fun _ _ => rfl) (fun _ => rfl),
          finallyEvents_countP (q := isEmail) (fun _ _ => rfl) (fun _ => rfl),
          encodePhase_isEmail_countP]
        simp [isEmail, hdry, hraise, hexit]
  · intro a b rest
    rfl

/-- Witness for C4 at concrete inputs: a failing encoder (exit code 1)
yields `Failed`, and a succeeding one yields `Succeeded` with no
notification. -/
theorem witness_C4 :
    ((transcode_video plainVideo { baseEnv with encoderExit := 1 }).1 = .failed ∧
      ((transcode_video plainVideo
        { baseEnv with encoderExit := 1 }).2).countP
          (isEmailTo plainVideo.title
            ({ baseEnv with encoderExit := 1 } : Env).localSourcePath) = 1) ∧
    (transcode_video plainVideo baseEnv).1 = .succeeded ∧
    process_videos [(plainVideo, { baseEnv with encoderExit := 1 }), (plainVideo, baseEnv)]
      = transcode_video plainVideo { baseEnv with encoderExit := 1 }
        :: transcode_video plainVideo baseEnv :: process_videos [] :=
  ⟨⟨((claim_C4.1 plainVideo { baseEnv with encoderExit := 1 } rfl (by decide) rfl rfl).1
      (by decide)).1,
    ((claim_C4.1 plainVideo { baseEnv with encoderExit := 1 } rfl (by decide) rfl rfl).1
      (by decide)).2.1⟩,
   ((claim_C4.1 plainVideo baseEnv rfl (by decide) rfl rfl).2 rfl).1,
   claim_C4.2 (plainVideo, { baseEnv with encoderExit := 1 }) (plainVideo, baseEnv) []⟩

/-- Counterexample to claim C5 as stated: in a dry run the destination
directory IS created — `os.makedirs` at line 257 runs before the dry-run
check at line 330, not in the non-dry-run branch. -/
theorem counterexample_C5 :
    ({ baseEnv with dryRun := true } : Env).dryRun = true ∧
    (transcode_video plainVideo { baseEnv with dryRun := true }).1 = .dryRunReported ∧
    Event.makedirs "out"
      ∈ (transcode_video plainVideo { baseEnv with dryRun := true }).2 := by
  decide

/-- Claim C5 as amended: under dry run the processing of an item terminates
after logging the fully-rendered command, with no encoder execution and no
notification; but the destination directory is created BEFORE the dry-run
check (at step 3, not alongside the encoder invocation), so it is created
in dry-run mode as well. -/
theorem claim_C5 :
    ∀ (v : Video) (env : Env), env.dryRun = true →
      ((transcode_video v env).2).countP isRun = 0 ∧
      ((transcode_video v env).2).countP isEmail = 0 ∧
      (env.localSourceExists = true →
        (skipCheck env (destination_path_of env)).1 = false →
        (transcode_video v env).1 = .dryRunReported ∧
        Event.makedirs env.destDir ∈ (transcode_video v env).2 ∧
        ∃ c, Event.log .info ("[DRY RUN] Would run command: " ++ prettyCmd c)
          ∈ (transcode_video v env).2) := by
  intro v env hdry
  have henc := fun cmd d => encodePhase_of_dry v env cmd d hdry
  refine ⟨?_, ?_, ?_⟩
  · cases hl : env.localSourceExists with
    | false =>
      rw [transcode_video_of_missing v env hl]
      simp [isRun]
    | true =>
      cases hsc : (skipCheck env (destination_path_of env)).1 with
      | true =>
        rw [transcode_video_of_skip v env hl hsc]
        simp only [List.countP_append,
          warn_countP (q := isRun) (fun _ _ => rfl),
          skipCheck_countP (q := isRun) (fun _ _ => rfl) (fun _ => rfl)]
      | false =>
        rw [transcode_video_proceed v env hl hsc, henc]
        simp only [List.countP_append,
          warn_countP (q := isRun) (fun _ _ => rfl),
          skipCheck_countP (q := isRun) (fun _ _ => rfl) (fun _ => rfl),
          subtitlePhase_countP (q := isRun) (fun _ _ => rfl) (fun _ => rfl),
          finallyEvents_countP (q := isRun) (fun _ _ => rfl) (fun _ => rfl)]
        simp [isRun]
  · cases hl : env.localSourceExists with
    | false =>
      rw [transcode_video_of_missing v env hl]
      simp [isEmail]
    | true =>
      cases hsc : (skipCheck env (destination_path_of env)).1 with
      | true =>
        rw [transcode_video_of_skip v env hl hsc]
        simp only [List.countP_append,
          warn_countP (q := isEmail) (fun _ _ => rfl),
          skipCheck_countP (q := isEmail) (fun _ _ => rfl) (fun _ => rfl)]
      | false =>
        rw [transcode_video_proceed v env hl hsc, henc]
        simp only [List.countP_append,
          warn_countP (q := isEmail) (fun _ _ => rfl),
          skipCheck_countP (q := isEmail) (fun _ _ => rfl) (fun _ => rfl),
          subtitlePhase_countP (q := isEmail) (fun _ _ => rfl) (fun _ => rfl),
          finallyEvents_countP (q := isEmail) (fun _ _ => rfl) (fun _ => rfl)]
        simp [isEmail]
  · intro hl hsc
    rw [transcode_video_proceed v env hl hsc, henc]
    refine ⟨rfl, ?_, ?_⟩
    · simp
    · refine ⟨build_ffmpeg_cmd env.localSourcePath (subtitlePhase v env).1 env.useQsv
        (destination_path_of env), ?_⟩
      simp

/-- Witness for C5 at a concrete dry-run input. -/
theorem witness_C5 :
    ((transcode_video plainVideo { baseEnv with dryRun := true }).2).countP isRun = 0 ∧
    (transcode_video plainVideo { baseEnv with dryRun := true }).1 = .dryRunReported :=
  ⟨(claim_C5 plainVideo { baseEnv with dryRun := true } rfl).1,
   ((claim_C5 plainVideo { baseEnv with dryRun := true } rfl).2.2 rfl (by decide)).1⟩

/-! ## Claims about the Plan Builder and Subtitle Acquirer -/

/-- Claim C6: with hardware encoding disabled the built argument list
passes `libx265` (and never `hevc_qsv`) as the `-c:v` codec, and vice
versa with it enabled; and with a subtitle resource present the `-vf`
filter-chain argument is exactly the subtitle overlay filter followed by
(hence appearing before) the scale/pad filter chain, in one string. -/
theorem claim_C6 :
    ∀ (lsp dst : String) (sub : Option String),
      ("libx265" ∈ build_ffmpeg_cmd lsp sub false dst ∧
        hasArgPair "-c:v" "libx265" (build_ffmpeg_cmd lsp sub false dst) = true ∧
        hasArgPair "-c:v" "hevc_qsv" (build_ffmpeg_cmd lsp sub false dst) = false) ∧
      ("hevc_qsv" ∈ build_ffmpeg_cmd lsp sub true dst ∧
        hasArgPair "-c:v" "hevc_qsv" (build_ffmpeg_cmd lsp sub true dst) = true ∧
        hasArgPair "-c:v" "libx265" (build_ffmpeg_cmd lsp sub true dst) = false) ∧
      (∀ p, sub = some p → ∀ qsv,
        hasArgPair "-vf" (subtitleFilter p ++ "," ++ base_video_filters)
          (build_ffmpeg_cmd lsp sub qsv dst) = true) := by
  intro lsp dst sub
  refine ⟨?_, ?_, ?_⟩
  · rcases sub with _ | p <;>
      simp [build_ffmpeg_cmd, hasArgPair, base_video_filters, subtitleFilter]
  · rcases sub with _ | p <;>
      simp [build_ffmpeg_cmd, hasArgPair, base_video_filters, subtitleFilter]
  · rintro p rfl qsv
    rcases qsv with _ | _ <;> simp [build_ffmpeg_cmd, hasArgPair]

/-- Witness for C6 at concrete inputs (paths `"s"`, `"d"`, subtitle at
`"p"`). -/
theorem witness_C6 :
    hasArgPair "-c:v" "hevc_qsv" (build_ffmpeg_cmd "s" (some "p") false "d") = false ∧
    hasArgPair "-vf" (subtitleFilter "p" ++ "," ++ base_video_filters)
      (build_ffmpeg_cmd "s" (some "p") false "d") = true :=
  ⟨(claim_C6 "s" "d" (some "p")).1.2.2,
   (claim_C6 "s" "d" (some "p")).2.2 "p" rfl false⟩

/-- Counterexample to claim C7 as stated: on a failed subtitle fetch the
attempt does proceed without subtitles (the item still succeeds), but the
soft failure is logged at ERROR severity — the whole trace contains no
warning-severity line at all, contradicting "logged at warning level".
(With no eligible track the log is at info severity instead.) -/
theorem counterexample_C7 :
    (transcode_video subVideo { baseEnv with fetch := .failBeforeCreate }).1
      = .succeeded ∧
    Event.log .error "Failed to download subtitle file. Transcoding without subtitles."
      ∈ (transcode_video subVideo { baseEnv with fetch := .failBeforeCreate }).2 ∧
    ((transcode_video subVideo
      { baseEnv with fetch := .failBeforeCreate }).2).countP isWarnLog = 0 := by
  decide

/-- Claim C7 as amended: subtitle acquisition selects the first subtitle
track, in stream order, whose language code is `eng` and whose codec field
is non-empty (first-match-wins); with no eligible track it selects nothing;
and both soft-failure cases proceed without subtitles and are never
escalated to a transcode failure: a fetch failure is logged at ERROR
severity, after which the encoder still runs on the subtitle-free command
and the item can still succeed; a missing eligible track is logged at INFO
severity (line 139), after which the encoder likewise runs on the
subtitle-free command and the item can still succeed.  Neither case logs at
warning severity. -/
theorem claim_C7 :
    (∀ (v : Video) (k : String),
      find_english_subtitle_stream v = some k ↔
        ∃ l₁ s l₂, v.subtitleStreams = l₁ ++ s :: l₂ ∧
          s.languageCode = "eng" ∧ s.codec ≠ "" ∧ s.key = k ∧
          ∀ t ∈ l₁, ¬(t.languageCode = "eng" ∧ t.codec ≠ "")) ∧
    (∀ v : Video,
      find_english_subtitle_stream v = none ↔
        ∀ s ∈ v.subtitleStreams, ¬(s.languageCode = "eng" ∧ s.codec ≠ "")) ∧
    (∀ (v : Video) (env : Env) (k : String),
      find_english_subtitle_stream v = some k →
      env.localSourceExists = true →
      (skipCheck env (destination_path_of env)).1 = false →
      (env.fetch = .failBeforeCreate ∨ env.fetch = .failAfterCreate) →
        Event.log .error "Failed to download subtitle file. Transcoding without subtitles."
          ∈ (transcode_video v env).2 ∧
        (env.dryRun = false → env.encoderRaises = false →
          Event.runEncoder (build_ffmpeg_cmd env.localSourcePath none env.useQsv
            (destination_path_of env)) ∈ (transcode_video v env).2) ∧
        (env.dryRun = false → env.encoderRaises = false → env.encoderExit = 0 →
          (transcode_video v env).1 = .succeeded)) ∧
    (∀ (v : Video) (env : Env),
      find_english_subtitle_stream v = none →
      env.localSourceExists = true →
      (skipCheck env (destination_path_of env)).1 = false →
        Event.log .info ("No English subtitle stream found for '" ++ v.title ++ "'")
          ∈ (transcode_video v env).2 ∧
        (env.dryRun = false → env.encoderRaises = false →
          Event.runEncoder (build_ffmpeg_cmd env.localSourcePath none env.useQsv
            (destination_path_of env)) ∈ (transcode_video v env).2) ∧
        (env.dryRun = false → env.encoderRaises = false → env.encoderExit = 0 →
          (transcode_video v env).1 = .succeeded)) := by
  have hpred : ∀ s : SubtitleStream,
      ((s.languageCode == "eng" && s.codec != "") = true) ↔
        (s.languageCode = "eng" ∧ s.codec ≠ "") := by
    intro s
    simp [Bool.and_eq_true]
  refine ⟨?_, ?_, ?_, ?_⟩
  · intro v k
    unfold find_english_subtitle_stream
    rw [Option.map_eq_some']
    constructor
    · rintro ⟨s, hfind, rfl⟩
      rw [List.find?_eq_some] at hfind
      obtain ⟨hp, as, bs, hxs, hall⟩ := hfind
      obtain ⟨h1, h2⟩ := (hpred s).mp hp
      refine ⟨as, s, bs, hxs, h1, h2, rfl, ?_⟩
      intro t ht hcontra
      have := hall t ht
      rw [Bool.not_eq_eq_eq_not, Bool.not_true] at this
      exact absurd ((hpred t).mpr hcontra) (by simp [this])
    · rintro ⟨l₁, s, l₂, hxs, h1, h2, rfl, hall⟩
      refine ⟨s, ?_, rfl⟩
      rw [List.find?_eq_some]
      refine ⟨(hpred s).mpr ⟨h1, h2⟩, l₁, l₂, hxs, ?_⟩
      intro a ha
      have : ¬ ((a.languageCode == "eng" && a.codec != "") = true) :=
        fun hc => hall a ha ((hpred a).mp hc)
      simp only [Bool.not_eq_true] at this
      simp [this]
  · intro v
    unfold find_english_subtitle_stream
    rw [Option.map_eq_none', List.find?_eq_none]
    constructor
    · intro h s hs hc
      exact absurd ((hpred s).mpr hc) (h s hs)
    · intro h s hs hc
      exact h s hs ((hpred s).mp hc)
  · intro v env k hfind hl hsc hfetch
    have hsub1 : (subtitlePhase v env).1 = none := by
      rcases hfetch with hf | hf
      · rw [subtitlePhase_of_failBefore v env hfind hf]
      · rw [subtitlePhase_of_failAfter v env hfind hf]
    have hmem : Event.log .error
        "Failed to download subtitle file. Transcoding without subtitles."
        ∈ (subtitlePhase v env).2 := by
      rcases hfetch with hf | hf
      · rw [subtitlePhase_of_failBefore v env hfind hf]
        simp
      · rw [subtitlePhase_of_failAfter v env hfind hf]
        simp
    rw [transcode_video_proceed v env hl hsc, hsub1]
    refine ⟨?_, ?_, ?_⟩
    · simp only [List.mem_append]
      exact Or.inl (Or.inl (Or.inr hmem))
    · intro hdry hraise
      simp only [List.mem_append]
      exact Or.inl (Or.inr (encodePhase_run_mem v env _ _ hdry hraise))
    · intro hdry hraise hexit
      rw [encodePhase_fst]
      simp [hdry, hraise, hexit]
  · intro v env hfind hl hsc
    have hsub := subtitlePhase_of_none v env hfind
    have hsub1 : (subtitlePhase v env).1 = none := by rw [hsub]
    have hmem : Event.log .info
        ("No English subtitle stream found for '" ++ v.title ++ "'")
        ∈ (subtitlePhase v env).2 := by
      rw [hsub]
      simp
    rw [transcode_video_proceed v env hl hsc, hsub1]
    refine ⟨?_, ?_, ?_⟩
    · simp only [List.mem_append]
      exact Or.inl (Or.inl (Or.inr hmem))
    · intro hdry hraise
      simp only [List.mem_append]
      exact Or.inl (Or.inr (encodePhase_run_mem v env _ _ hdry hraise))
    · intro hdry hraise hexit
      rw [encodePhase_fst]
      simp [hdry, hraise, hexit]

/-- Witness for C7 at concrete inputs: the eligible track of `subVideo` is
selected; a pre-creation fetch failure still lets the item succeed; and a
video with no subtitle tracks logs the no-track line at info severity and
still succeeds. -/
theorem witness_C7 :
    find_english_subtitle_stream subVideo = some "k" ∧
    (transcode_video subVideo { baseEnv with fetch := .failBeforeCreate }).1
      = .succeeded ∧
    Event.log .info ("No English subtitle stream found for '" ++ plainVideo.title ++ "'")
      ∈ (transcode_video plainVideo baseEnv).2 ∧
    (transcode_video plainVideo baseEnv).1 = .succeeded :=
  ⟨(claim_C7.1 subVideo "k").mpr
      ⟨[], { languageCode := "eng", codec := "srt", key := "k" }, [], rfl, rfl,
        by decide, rfl, by simp⟩,
   ((claim_C7.2.2.1 subVideo { baseEnv with fetch := .failBeforeCreate } "k"
      (by decide) rfl (by decide) (Or.inl rfl)).2.2 rfl rfl rfl),
   (claim_C7.2.2.2 plainVideo baseEnv (by decide) rfl (by decide)).1,
   ((claim_C7.2.2.2 plainVideo baseEnv (by decide) rfl (by decide)).2.2 rfl rfl rfl)⟩

end VanPlex
